import Mathlib

/-!
Verification of the scale-journey visualization core against its source.

The definitions below are shallow embeddings of the TypeScript sources:
  - engine/scaleJourney.ts      (clampIndex, getProgressPercent, getLogHeightNormalized,
                                 findEntryIndexBySlug)
  - lib/scaleViewport.ts        (clamp)
  - lib/music.ts                (clamp, ramp, clampUnit, getLayerMixForProgress,
                                 getStepDurationSeconds)
  - lib/representative.ts       (selectRepresentativePokemonByHeight and helpers)
  - hooks/useWebAudioScaffold.ts (the scheduling tick of startScheduler)
  - components/ScaleJourneyApp.tsx (worldCenters, pixelsPerMeter, renderedEntries,
                                 readInitialIndex, the hashchange handler, onWheel,
                                 keyboard steps and setActive)
JavaScript numbers are modelled as exact rationals (ℚ); the base-10 logarithm of
getLogHeightNormalized is modelled over ℝ with Real.logb.
-/

/-- Shallow embedding of `clamp` from lib/scaleViewport.ts:
`Math.max(min, Math.min(value, max))`. -/
def clamp (value lo hi : ℚ) : ℚ :=
  max lo (min value hi)

/-- Shallow embedding of `clampIndex` from engine/scaleJourney.ts:
returns 0 when `total <= 0`, otherwise `Math.max(0, Math.min(index, total - 1))`. -/
def clampIndex (index total : ℤ) : ℤ :=
  if total ≤ 0 then 0
  else max 0 (min index (total - 1))

/-- Shallow embedding of `getProgressPercent` from engine/scaleJourney.ts:
returns 100 when `total <= 1`, otherwise `(index / (total - 1)) * 100`. -/
def getProgressPercent (index total : ℚ) : ℚ :=
  if total ≤ 1 then 100
  else index / (total - 1) * 100

/-- Shallow embedding of `findEntryIndexBySlug` from engine/scaleJourney.ts, with the
entry list abstracted to its list of ids: `entries.findIndex((entry) => entry.id === slug)`,
which yields the first matching index or -1. -/
def findEntryIndexBySlug (ids : List String) (slug : String) : ℤ :=
  match ids.findIdx? (fun i => i = slug) with
  | some i => (i : ℤ)
  | none => -1

/-- Shallow embedding of `readInitialIndex` from components/ScaleJourneyApp.tsx.
The URL fragment is abstracted to the already-decoded `slug` string; an absent
fragment reads as the empty string, exactly as `getSlugFromHash` produces it. -/
def readInitialIndex (ids : List String) (slug : String) : ℤ :=
  if ids.length = 0 then 0
  else if slug = "" then 0
  else
    let index := findEntryIndexBySlug ids slug
    if 0 ≤ index then index else 0

/-- Shallow embedding of the `hashchange` handler of components/ScaleJourneyApp.tsx:
it resolves the slug and calls `setActive(index)` (that is, `clampIndex`) only when
`index >= 0`; otherwise the active index is left untouched. -/
def onHashChangeStep (ids : List String) (slug : String) (current : ℤ) : ℤ :=
  let index := findEntryIndexBySlug ids slug
  if 0 ≤ index then clampIndex index (ids.length : ℤ) else current

/-- Shallow embedding of `setActive` from components/ScaleJourneyApp.tsx:
`setActiveIndex(clampIndex(index, entries.length))`. -/
def setActive (index : ℤ) (total : ℤ) : ℤ :=
  clampIndex index total

/-- Shallow embedding of the ArrowRight/ArrowLeft keyboard handler of
components/ScaleJourneyApp.tsx: `setActive(safeActiveIndex + direction)`. -/
def keyboardStep (safeActiveIndex direction total : ℤ) : ℤ :=
  setActive (safeActiveIndex + direction) total

/-- Truncation toward zero, the semantics of JavaScript `Math.trunc`. -/
def ratTrunc (q : ℚ) : ℤ :=
  if 0 ≤ q then ⌊q⌋ else ⌈q⌉

/-- Threshold constant `WHEEL_STEP_THRESHOLD` of components/ScaleJourneyApp.tsx. -/
def wheelStepThreshold : ℚ := 140

/-- The mutable state read and written by the wheel handler: the active index and
the wheel accumulator ref. -/
structure WheelState where
  index : ℤ
  acc : ℚ
  deriving DecidableEq, Repr

/-- Shallow embedding of the `onWheel` handler of components/ScaleJourneyApp.tsx:
accumulate `-event.deltaY`, take `Math.trunc(acc / WHEEL_STEP_THRESHOLD)` steps,
and when nonzero set the clamped index and subtract the consumed amount. -/
def onWheel (total : ℤ) (deltaY : ℚ) (s : WheelState) : WheelState :=
  let acc := s.acc + (-deltaY)
  let steps := ratTrunc (acc / wheelStepThreshold)
  if steps = 0 then { index := s.index, acc := acc }
  else { index := clampIndex (s.index + steps) total, acc := acc - steps * wheelStepThreshold }

/-- Shallow embedding of the local `clamp` of lib/music.ts:
`Math.min(Math.max(value, min), max)`. -/
def musicClamp (value lo hi : ℚ) : ℚ :=
  min (max value lo) hi

/-- Shallow embedding of `ramp` from lib/music.ts. -/
def ramp (progress start stop : ℚ) : ℚ :=
  if stop ≤ start then (if progress ≥ stop then 1 else 0)
  else musicClamp ((progress - start) / (stop - start)) 0 1

/-- Shallow embedding of `clampUnit` from lib/music.ts (a rational is always
finite, so the `Number.isFinite` guard is identically true here). -/
def clampUnit (value : ℚ) : ℚ :=
  musicClamp value 0 1

/-- Shallow embedding of `getLayerMixForProgress` from lib/music.ts. -/
def getLayerMixForProgress (progressValue : ℚ) : List ℚ :=
  let progress := clampUnit progressValue
  [ 0.68 + 0.32 * ramp progress 0 0.28,
    ramp progress 0.14 0.34,
    ramp progress 0.34 0.56,
    ramp progress 0.56 0.78,
    ramp progress 0.76 0.96 ]

/-- Constant `MIN_BPM` of lib/music.ts. -/
def minBpm : ℚ := 92

/-- Constant `MAX_BPM` of lib/music.ts. -/
def maxBpm : ℚ := 124

/-- Shallow embedding of `getStepDurationSeconds` from lib/music.ts: the bpm is
clamped into `[MIN_BPM, MAX_BPM]` and the step lasts `60 / bpm / 4` seconds
(a rational is always finite, so the `Number.isFinite` guard is identically true). -/
def getStepDurationSeconds (bpmValue : ℚ) : ℚ :=
  60 / musicClamp bpmValue minBpm maxBpm / 4

/-- Constant `SCHEDULE_AHEAD_SECONDS` of hooks/useWebAudioScaffold.ts. -/
def scheduleAheadSeconds : ℚ := 0.18

/-- Constant `LOOP_STEPS` of hooks/useWebAudioScaffold.ts. -/
def loopSteps : ℕ := 16

theorem claim_c7_progress :
    (∀ total : ℚ, 1 < total → getProgressPercent 0 total = 0 ∧
      getProgressPercent (total - 1) total = 100) ∧
    (∀ index total : ℚ, total ≤ 1 → getProgressPercent index total = 100) ∧
    (∀ index total : ℚ, 1 < total →
      getProgressPercent index total = index / (total - 1) * 100) ∧
    (∀ i j total : ℚ, i ≤ j →
      getProgressPercent i total ≤ getProgressPercent j total) := by
  refine ⟨?_, ?_, ?_, ?_⟩
  · intro total h
    have h1 : ¬ total ≤ 1 := not_le.mpr h
    have hne : total - 1 ≠ 0 := by linarith
    constructor
    · simp [getProgressPercent, h1]
    · simp [getProgressPercent, h1, div_self hne]
  · intro index total h
    simp [getProgressPercent, h]
  · intro index total h
    simp [getProgressPercent, not_le.mpr h]
  · intro i j total hij
    by_cases h : total ≤ 1
    · simp [getProgressPercent, h]
    · have h1 : (0:ℚ) < total - 1 := by
        have := not_le.mp h
        linarith
      simp only [getProgressPercent, if_neg h]
      have h2 : i / (total - 1) ≤ j / (total - 1) := by gcongr
      linarith

theorem claim_c7_progress_witness :
    getProgressPercent 0 3 = 0 ∧ getProgressPercent (3 - 1) 3 = 100 ∧
    getProgressPercent 0 1 = 100 ∧ getProgressPercent 1 3 = 1 / (3 - 1) * 100 ∧
    getProgressPercent 1 3 ≤ getProgressPercent 2 3 :=
  ⟨(claim_c7_progress.1 3 (by norm_num)).1,
   (claim_c7_progress.1 3 (by norm_num)).2,
   claim_c7_progress.2.1 0 1 (by norm_num),
   claim_c7_progress.2.2.1 1 3 (by norm_num),
   claim_c7_progress.2.2.2 1 2 3 (by norm_num)⟩

lemma clampIndex_bounds (index total : ℤ) (h : 0 < total) :
    0 ≤ clampIndex index total ∧ clampIndex index total ≤ total - 1 := by
  simp only [clampIndex, if_neg (not_le.mpr h)]
  exact ⟨le_max_left 0 _, max_le (by omega) (min_le_right _ _)⟩

lemma findIdx?_lt_length {α : Type} (p : α → Bool) (l : List α) (i : ℕ)
    (h : l.findIdx? p = some i) : i < l.length := by
  induction l generalizing i with
  | nil => simp [List.findIdx?] at h
  | cons a t ih =>
    rw [List.findIdx?_cons] at h
    by_cases hp : p a
    · simp only [List.length_cons]
      simp [hp] at h
      omega
    · simp [hp] at h
      obtain ⟨j, hj, hji⟩ := h
      have := ih j hj
      simp only [List.length_cons]
      omega

lemma findEntryIndexBySlug_cases (ids : List String) (slug : String) :
    findEntryIndexBySlug ids slug = -1 ∨
      (0 ≤ findEntryIndexBySlug ids slug ∧
        findEntryIndexBySlug ids slug ≤ (ids.length : ℤ) - 1) := by
  unfold findEntryIndexBySlug
  cases h : ids.findIdx? (fun i => i = slug) with
  | none => exact Or.inl rfl
  | some i =>
    right
    have := findIdx?_lt_length _ _ _ h
    dsimp only
    constructor
    · exact Int.ofNat_nonneg i
    · omega

/-- Claim C2: whenever the entry list is non-empty, the rendering index and every
index produced by a navigation transition (direct set, keyboard step, wheel step,
deep-link jump at mount or on hash change) lies in `[0, entries.length - 1]`, and
`clampIndex i total` is `0` for `total ≤ 0` and in `[0, total - 1]` otherwise. -/
theorem claim_c2_indices_in_range :
    (∀ index total : ℤ, total ≤ 0 → clampIndex index total = 0) ∧
    (∀ index total : ℤ, 0 < total →
      0 ≤ clampIndex index total ∧ clampIndex index total ≤ total - 1) ∧
    (∀ (ids : List String) (slug : String), ids ≠ [] →
      0 ≤ readInitialIndex ids slug ∧
        readInitialIndex ids slug ≤ (ids.length : ℤ) - 1) ∧
    (∀ (ids : List String) (slug : String) (current : ℤ), ids ≠ [] →
      0 ≤ current → current ≤ (ids.length : ℤ) - 1 →
      0 ≤ onHashChangeStep ids slug current ∧
        onHashChangeStep ids slug current ≤ (ids.length : ℤ) - 1) ∧
    (∀ index total : ℤ, 0 < total →
      0 ≤ setActive index total ∧ setActive index total ≤ total - 1) ∧
    (∀ safe direction total : ℤ, 0 < total →
      0 ≤ keyboardStep safe direction total ∧
        keyboardStep safe direction total ≤ total - 1) ∧
    (∀ (total : ℤ) (deltaY : ℚ) (s : WheelState), 0 < total →
      0 ≤ s.index → s.index ≤ total - 1 →
      0 ≤ (onWheel total deltaY s).index ∧
        (onWheel total deltaY s).index ≤ total - 1) := by
  have hlen : ∀ ids : List String, ids ≠ [] → 0 < (ids.length : ℤ) := by
    intro ids h
    have : ids.length ≠ 0 := by
      simpa [List.length_eq_zero] using h
    omega
  refine ⟨?_, ?_, ?_, ?_, ?_, ?_, ?_⟩
  · intro index total h
    simp [clampIndex, h]
  · exact clampIndex_bounds
  · intro ids slug h
    have h0 := hlen ids h
    unfold readInitialIndex
    have hne : ¬ ids.length = 0 := by omega
    rcases findEntryIndexBySlug_cases ids slug with hc | hc
    · simp only [hne, if_neg]
      by_cases hs : slug = ""
      · simp [hs]
        omega
      · simp [hs, hc]
        omega
    · simp only [hne, if_neg]
      by_cases hs : slug = ""
      · simp [hs]
        omega
      · simp only [hs, if_neg, if_false]
        rw [if_pos hc.1]
        exact hc
  · intro ids slug current h hc0 hc1
    have h0 := hlen ids h
    unfold onHashChangeStep
    by_cases hf : 0 ≤ findEntryIndexBySlug ids slug
    · rw [if_pos hf]
      exact clampIndex_bounds _ _ h0
    · rw [if_neg hf]
      exact ⟨hc0, hc1⟩
  · intro index total h
    exact clampIndex_bounds _ _ h
  · intro safe direction total h
    exact clampIndex_bounds _ _ h
  · intro total deltaY s h h0 h1
    unfold onWheel
    by_cases hs : ratTrunc ((s.acc + -deltaY) / wheelStepThreshold) = 0
    · simp only [hs, if_pos]
      exact ⟨h0, h1⟩
    · simp only [hs, if_neg, if_false]
      exact clampIndex_bounds _ _ h

theorem claim_c2_indices_in_range_witness :
    clampIndex 5 0 = 0 ∧
    (0 ≤ clampIndex 7 3 ∧ clampIndex 7 3 ≤ 3 - 1) ∧
    (0 ≤ readInitialIndex ["a", "b"] "zzz" ∧
      readInitialIndex ["a", "b"] "zzz" ≤ (2 : ℤ) - 1) ∧
    (0 ≤ onHashChangeStep ["a", "b"] "b" 0 ∧
      onHashChangeStep ["a", "b"] "b" 0 ≤ (2 : ℤ) - 1) ∧
    (0 ≤ setActive 9 2 ∧ setActive 9 2 ≤ 2 - 1) ∧
    (0 ≤ keyboardStep 1 1 2 ∧ keyboardStep 1 1 2 ≤ 2 - 1) ∧
    (0 ≤ (onWheel 2 (-300) ⟨0, 0⟩).index ∧ (onWheel 2 (-300) ⟨0, 0⟩).index ≤ 2 - 1) := by
  obtain ⟨a, b, c, d, e, f, g⟩ := claim_c2_indices_in_range
  refine ⟨a 5 0 (by norm_num), b 7 3 (by norm_num), ?_, ?_, e 9 2 (by norm_num),
    f 1 1 2 (by norm_num), g 2 (-300) ⟨0, 0⟩ (by norm_num) (by norm_num) (by norm_num)⟩
  · have := c ["a", "b"] "zzz" (by simp)
    simpa using this
  · have := d ["a", "b"] "b" 0 (by simp) (by norm_num) (by norm_num)
    simpa using this

lemma ratTrunc_eq_zero {x : ℚ} (h : |x| < 1) : ratTrunc x = 0 := by
  rw [abs_lt] at h
  unfold ratTrunc
  by_cases h0 : 0 ≤ x
  · rw [if_pos h0]
    exact Int.floor_eq_zero_iff.mpr ⟨h0, h.2⟩
  · rw [if_neg h0]
    exact Int.ceil_eq_zero_iff.mpr ⟨h.1, le_of_lt (not_le.mp h0)⟩

lemma ratTrunc_eq_one {x : ℚ} (h1 : 1 ≤ x) (h2 : x < 2) : ratTrunc x = 1 := by
  unfold ratTrunc
  rw [if_pos (le_trans zero_le_one h1)]
  rw [Int.floor_eq_iff]
  constructor <;> push_cast <;> linarith

lemma ratTrunc_eq_neg_one {x : ℚ} (h1 : -2 < x) (h2 : x ≤ -1) : ratTrunc x = -1 := by
  unfold ratTrunc
  rw [if_neg (by linarith)]
  rw [Int.ceil_eq_iff]
  constructor <;> push_cast <;> linarith

/-- Claim C3: a wheel event whose accumulated delta stays below the 140-unit
threshold leaves the active index unchanged and just accumulates; when each
individual delta is sub-threshold and the accumulated magnitude crosses the
threshold, exactly one step is emitted in the sign's direction, the accumulator
is decremented by the threshold, and the sub-threshold remainder is preserved. -/
theorem claim_c3_wheel_accumulator :
    (∀ (total : ℤ) (deltaY : ℚ) (s : WheelState),
      |s.acc + -deltaY| < wheelStepThreshold →
      (onWheel total deltaY s).index = s.index ∧
      (onWheel total deltaY s).acc = s.acc + -deltaY) ∧
    (∀ (total : ℤ) (deltaY : ℚ) (s : WheelState),
      |s.acc| < wheelStepThreshold → |deltaY| < wheelStepThreshold →
      wheelStepThreshold ≤ |s.acc + -deltaY| →
      (0 < s.acc + -deltaY →
        (onWheel total deltaY s).index = clampIndex (s.index + 1) total ∧
        (onWheel total deltaY s).acc = s.acc + -deltaY - wheelStepThreshold) ∧
      (s.acc + -deltaY < 0 →
        (onWheel total deltaY s).index = clampIndex (s.index - 1) total ∧
        (onWheel total deltaY s).acc = s.acc + -deltaY + wheelStepThreshold) ∧
      |(onWheel total deltaY s).acc| < wheelStepThreshold) := by
  have hthr : wheelStepThreshold = (140 : ℚ) := rfl
  constructor
  · intro total deltaY s h
    have hz : ratTrunc ((s.acc + -deltaY) / wheelStepThreshold) = 0 := by
      apply ratTrunc_eq_zero
      rw [abs_div, abs_of_pos (by rw [hthr]; norm_num : (0:ℚ) < wheelStepThreshold)]
      rw [div_lt_one (by rw [hthr]; norm_num)]
      exact h
    simp [onWheel, hz]
  · intro total deltaY s hacc hd hcross
    rw [hthr] at hacc hd hcross
    rw [abs_lt] at hacc hd
    have habs : |s.acc + -deltaY| < 280 := by
      rw [abs_lt]
      constructor <;> linarith [abs_nonneg (s.acc + -deltaY)]
    rw [abs_lt] at habs
    refine ⟨?_, ?_, ?_⟩
    · intro hpos
      have hge : (140:ℚ) ≤ s.acc + -deltaY := by
        rcases abs_cases (s.acc + -deltaY) with ⟨he, _⟩ | ⟨he, _⟩
        · rw [he] at hcross; exact hcross
        · rw [he] at hcross; linarith
      have hone : ratTrunc ((s.acc + -deltaY) / wheelStepThreshold) = 1 := by
        apply ratTrunc_eq_one
        · rw [hthr, le_div_iff₀ (by norm_num : (0:ℚ) < 140)]
          linarith
        · rw [hthr, div_lt_iff₀ (by norm_num : (0:ℚ) < 140)]
          linarith
      simp only [onWheel, hone, one_ne_zero, if_false]
      norm_num
    · intro hneg
      have hle : s.acc + -deltaY ≤ -140 := by
        rcases abs_cases (s.acc + -deltaY) with ⟨he, _⟩ | ⟨he, _⟩
        · rw [he] at hcross; linarith
        · rw [he] at hcross; linarith
      have hone : ratTrunc ((s.acc + -deltaY) / wheelStepThreshold) = -1 := by
        apply ratTrunc_eq_neg_one
        · rw [hthr, lt_div_iff₀ (by norm_num : (0:ℚ) < 140)]
          linarith
        · rw [hthr, div_le_iff₀ (by norm_num : (0:ℚ) < 140)]
          linarith
      simp only [onWheel, hone, neg_ne_zero, one_ne_zero, if_false]
      norm_num
      rw [sub_eq_add_neg]
    · rcases lt_or_le 0 (s.acc + -deltaY) with hpos | hnonpos
      all_goals rcases lt_or_le (s.acc + -deltaY) 0 with hneg | hnonneg
      · linarith
      · have hge : (140:ℚ) ≤ s.acc + -deltaY := by
          rcases abs_cases (s.acc + -deltaY) with ⟨he, _⟩ | ⟨he, _⟩
          · rw [he] at hcross; exact hcross
          · rw [he] at hcross; linarith
        have hone : ratTrunc ((s.acc + -deltaY) / wheelStepThreshold) = 1 := by
          apply ratTrunc_eq_one
          · rw [hthr, le_div_iff₀ (by norm_num : (0:ℚ) < 140)]
            linarith
          · rw [hthr, div_lt_iff₀ (by norm_num : (0:ℚ) < 140)]
            linarith
        simp only [onWheel, hone, one_ne_zero, if_false]
        rw [hthr]
        rw [abs_lt]
        constructor <;> push_cast <;> linarith
      · have hle : s.acc + -deltaY ≤ -140 := by
          rcases abs_cases (s.acc + -deltaY) with ⟨he, _⟩ | ⟨he, _⟩
          · rw [he] at hcross; linarith
          · rw [he] at hcross; linarith
        have hone : ratTrunc ((s.acc + -deltaY) / wheelStepThreshold) = -1 := by
          apply ratTrunc_eq_neg_one
          · rw [hthr, lt_div_iff₀ (by norm_num : (0:ℚ) < 140)]
            linarith
          · rw [hthr, div_le_iff₀ (by norm_num : (0:ℚ) < 140)]
            linarith
        simp only [onWheel, hone, neg_ne_zero, one_ne_zero, if_false]
        rw [hthr]
        rw [abs_lt]
        constructor <;> push_cast <;> linarith
      · have : s.acc + -deltaY = 0 := le_antisymm hnonpos hnonneg
        rw [this] at hcross
        simp at hcross
        linarith

theorem claim_c3_wheel_accumulator_witness :
    ((onWheel 3 (-100) ⟨0, 0⟩).index = 0 ∧ (onWheel 3 (-100) ⟨0, 0⟩).acc = 0 + -(-100)) ∧
    ((onWheel 3 (-100) ⟨0, 100⟩).index = clampIndex (0 + 1) 3 ∧
      (onWheel 3 (-100) ⟨0, 100⟩).acc = 100 + -(-100) - wheelStepThreshold) ∧
    |(onWheel 3 (-100) ⟨0, 100⟩).acc| < wheelStepThreshold := by
  have h1 := claim_c3_wheel_accumulator.1 3 (-100) ⟨0, 0⟩ (by norm_num [wheelStepThreshold])
  have h2 := claim_c3_wheel_accumulator.2 3 (-100) ⟨0, 100⟩
    (by norm_num [wheelStepThreshold]) (by norm_num [wheelStepThreshold])
    (by norm_num [wheelStepThreshold])
  exact ⟨h1, h2.1 (by norm_num), h2.2.2⟩

/-- Claim C8 counterexample: at progress 0 the base layer's mix entry is 0.68,
not the full gain of 1 that the claim asserts. -/
theorem claim_c8_layer_mix_cex :
    (getLayerMixForProgress 0).head? = some 0.68 ∧ (0.68 : ℚ) ≠ 1 := by
  norm_num [getLayerMixForProgress, clampUnit, musicClamp, ramp, min_def, max_def]

/-- Claim C8, amended: `getLayerMixForProgress 1` puts all five layers at their
maximum contribution 1, and `getLayerMixForProgress 0` leaves only the base layer
active — at partial gain 0.68, not full gain — with the other four layers at 0. -/
theorem claim_c8_layer_mix_amended :
    getLayerMixForProgress 1 = [1, 1, 1, 1, 1] ∧
    getLayerMixForProgress 0 = [0.68, 0, 0, 0, 0] := by
  norm_num [getLayerMixForProgress, clampUnit, musicClamp, ramp, min_def, max_def]

/-- Claim C9 counterexample: an external hash change to an unknown slug leaves the
active index unchanged (here 1) instead of falling back to index 0. -/
theorem claim_c9_deep_link_cex :
    findEntryIndexBySlug ["a", "b"] "zzz" = -1 ∧
    onHashChangeStep ["a", "b"] "zzz" 1 = 1 ∧ (1 : ℤ) ≠ 0 := by
  decide

/-- Claim C9, amended: at mount an unresolvable fragment falls back to index 0,
while an external hash change with an unresolvable fragment leaves the active
index unchanged; a resolvable (non-empty) fragment jumps to that entry's index in
both paths. -/
theorem claim_c9_deep_link_amended :
    (∀ (ids : List String) (slug : String),
      findEntryIndexBySlug ids slug = -1 → readInitialIndex ids slug = 0) ∧
    (∀ (ids : List String) (slug : String) (current : ℤ),
      findEntryIndexBySlug ids slug = -1 → onHashChangeStep ids slug current = current) ∧
    (∀ (ids : List String) (slug : String) (i : ℕ),
      ids.findIdx? (fun x => x = slug) = some i → slug ≠ "" →
      readInitialIndex ids slug = i ∧
      ∀ current : ℤ, onHashChangeStep ids slug current = i) := by
  refine ⟨?_, ?_, ?_⟩
  · intro ids slug h
    unfold readInitialIndex
    by_cases h0 : ids.length = 0
    · simp [h0]
    · by_cases hs : slug = ""
      · simp [h0, hs]
      · simp only [h0, hs, if_false, if_neg]
        rw [h]
        norm_num
  · intro ids slug current h
    unfold onHashChangeStep
    rw [h]
    norm_num
  · intro ids slug i hf hs
    have hfind : findEntryIndexBySlug ids slug = (i : ℤ) := by
      unfold findEntryIndexBySlug
      rw [hf]
    have hlen : i < ids.length := findIdx?_lt_length _ _ _ hf
    have hlen0 : ids.length ≠ 0 := by omega
    have hclamp : clampIndex (i : ℤ) (ids.length : ℤ) = (i : ℤ) := by
      unfold clampIndex
      rw [if_neg (by omega)]
      rw [min_eq_left (by omega), max_eq_right (by omega)]
    constructor
    · unfold readInitialIndex
      simp only [hlen0, hs, if_false, if_neg]
      rw [hfind]
      rw [if_pos (Int.ofNat_nonneg i)]
    · intro current
      unfold onHashChangeStep
      rw [hfind]
      rw [if_pos (Int.ofNat_nonneg i)]
      exact hclamp

theorem claim_c9_deep_link_amended_witness :
    readInitialIndex ["a", "b"] "zzz" = 0 ∧
    onHashChangeStep ["a", "b"] "zzz" 1 = 1 ∧
    readInitialIndex ["a", "b"] "b" = 1 ∧
    onHashChangeStep ["a", "b"] "b" 0 = 1 := by
  obtain ⟨h1, h2, h3⟩ := claim_c9_deep_link_amended
  have hb := h3 ["a", "b"] "b" 1 (by rfl) (by decide)
  exact ⟨h1 ["a", "b"] "zzz" (by decide), h2 ["a", "b"] "zzz" 1 (by decide),
    hb.1, hb.2 0⟩

lemma getStepDurationSeconds_bounds (bpmValue : ℚ) :
    15 / 124 ≤ getStepDurationSeconds bpmValue ∧
    getStepDurationSeconds bpmValue ≤ 15 / 92 := by
  unfold getStepDurationSeconds musicClamp minBpm maxBpm
  have h1 : (92:ℚ) ≤ min (max bpmValue 92) 124 :=
    le_min (le_max_right _ _) (by norm_num)
  have h2 : min (max bpmValue 92) 124 ≤ 124 := min_le_right _ _
  have hpos : (0:ℚ) < min (max bpmValue 92) 124 := by linarith
  rw [div_div]
  constructor
  · rw [div_le_div_iff₀ (by norm_num) (by linarith)]
    nlinarith
  · rw [div_le_div_iff₀ (by linarith) (by norm_num)]
    nlinarith

/-- Shallow embedding of one invocation of `tick` inside `startScheduler` of
hooks/useWebAudioScaffold.ts: while `nextStepTime < currentTime + SCHEDULE_AHEAD_SECONDS`,
schedule the step, advance `nextStepTime` by the current step duration, and advance
the step cursor modulo `LOOP_STEPS`. The audio clock reading and the progress value
(hence the bpm fed to `getStepDurationSeconds`) are fixed for the duration of the
synchronous tick; side effects of `scheduleStep` do not touch the cursor state. -/
def schedulerTick (bpm deadline next : ℚ) (stepIndex : ℕ) : ℚ × ℕ :=
  if h : next < deadline then
    schedulerTick bpm deadline (next + getStepDurationSeconds bpm)
      ((stepIndex + 1) % loopSteps)
  else (next, stepIndex)
termination_by (⌈(deadline - next) * (124 / 15)⌉).toNat
decreasing_by
  have hd := (getStepDurationSeconds_bounds bpm).1
  have hx : 0 < (deadline - next) * (124 / 15 : ℚ) :=
    mul_pos (by linarith) (by norm_num)
  have hceil : 1 ≤ ⌈(deadline - next) * (124 / 15 : ℚ)⌉ := Int.ceil_pos.mpr hx
  have key : (deadline - (next + getStepDurationSeconds bpm)) * (124 / 15 : ℚ) ≤
      (deadline - next) * (124 / 15) - 1 := by nlinarith
  have hle := Int.ceil_le_ceil key
  rw [show ((deadline - next) * (124 / 15 : ℚ) - 1) =
    (deadline - next) * (124 / 15) - (1 : ℤ) by push_cast; ring] at hle
  rw [Int.ceil_sub_int] at hle
  omega

lemma schedulerTick_ge (bpm deadline next : ℚ) (stepIndex : ℕ) :
    deadline ≤ (schedulerTick bpm deadline next stepIndex).1 ∨
    ((schedulerTick bpm deadline next stepIndex).1 = next ∧ ¬ next < deadline) := by
  induction next, stepIndex using schedulerTick.induct bpm deadline with
  | case1 next stepIndex h ih =>
    rw [schedulerTick, dif_pos h]
    rcases ih with hge | ⟨heq, hnot⟩
    · exact Or.inl hge
    · left
      rw [heq]
      linarith [not_lt.mp hnot]
  | case2 next stepIndex h =>
    rw [schedulerTick, dif_neg h]
    exact Or.inr ⟨rfl, h⟩

lemma schedulerTick_lt (bpm deadline next : ℚ) (stepIndex : ℕ)
    (h : next < deadline + 15 / 92) :
    (schedulerTick bpm deadline next stepIndex).1 < deadline + 15 / 92 := by
  induction next, stepIndex using schedulerTick.induct bpm deadline with
  | case1 next stepIndex hlt ih =>
    rw [schedulerTick, dif_pos hlt]
    apply ih
    have := (getStepDurationSeconds_bounds bpm).2
    linarith
  | case2 next stepIndex hlt =>
    rw [schedulerTick, dif_neg hlt]
    exact h

/-- Claim C4: after a scheduling tick completes (starting from any reachable
pre-state, i.e. one with `nextStepTime < now + lookahead + maxStep`, which holds
at creation where `nextStepTime = now + 0.05` and is re-established by every tick
even as the clock advances), the cursor satisfies
`now + 0.18 ≤ nextStepTime' < now + 0.18 + 60/92/4`: the scheduler never falls
behind the lookahead window and never runs more than one maximal step ahead of it. -/
theorem claim_c4_scheduler_tick_bounds (bpm now next : ℚ) (stepIndex : ℕ)
    (h : next < now + scheduleAheadSeconds + 60 / 92 / 4) :
    now + scheduleAheadSeconds ≤
      (schedulerTick bpm (now + scheduleAheadSeconds) next stepIndex).1 ∧
    (schedulerTick bpm (now + scheduleAheadSeconds) next stepIndex).1 <
      now + scheduleAheadSeconds + 60 / 92 / 4 := by
  have hb : (60 : ℚ) / 92 / 4 = 15 / 92 := by norm_num
  rw [hb] at h ⊢
  constructor
  · rcases schedulerTick_ge bpm (now + scheduleAheadSeconds) next stepIndex with
      hge | ⟨heq, hnot⟩
    · exact hge
    · rw [heq]
      exact not_lt.mp hnot
  · exact schedulerTick_lt _ _ _ _ h

theorem claim_c4_scheduler_tick_bounds_witness :
    0 + scheduleAheadSeconds ≤
      (schedulerTick 92 (0 + scheduleAheadSeconds) (1 / 20) 0).1 ∧
    (schedulerTick 92 (0 + scheduleAheadSeconds) (1 / 20) 0).1 <
      0 + scheduleAheadSeconds + 60 / 92 / 4 :=
  claim_c4_scheduler_tick_bounds 92 0 (1 / 20) 0
    (by norm_num [scheduleAheadSeconds])

/-- Shallow embedding of `getLogHeightNormalized` from engine/scaleJourney.ts over ℝ,
with the local bindings `safeHeight`, `minLog`, `maxLog`, `currentLog` inlined:
all three inputs are floored at 0.01 before taking the base-10 logarithm, a
degenerate range (`maxLog == minLog`) returns 0, and otherwise the log of the
value is mapped linearly into the range and clamped into `[0, 1]`
(`Math.max(0, Math.min(..., 1))`). -/
noncomputable def getLogHeightNormalized (heightMeters minHeight maxHeight : ℝ) : ℝ :=
  if Real.logb 10 (max maxHeight 0.01) = Real.logb 10 (max minHeight 0.01) then 0
  else
    max 0 (min ((Real.logb 10 (max heightMeters 0.01) - Real.logb 10 (max minHeight 0.01)) /
      (Real.logb 10 (max maxHeight 0.01) - Real.logb 10 (max minHeight 0.01))) 1)

/-- Claim C5 counterexample: with min = max = 1 (both at least the 0.01 epsilon)
and value = 1 ≥ max, the function returns 0, not the 1 the claim requires for
every value ≥ max. -/
theorem claim_c5_log_normalized_cex :
    (0.01 : ℝ) ≤ 1 ∧ (1 : ℝ) ≤ 1 ∧ getLogHeightNormalized 1 1 1 = 0 ∧
    getLogHeightNormalized 1 1 1 ≠ 1 := by
  have h : getLogHeightNormalized 1 1 1 = 0 := by
    unfold getLogHeightNormalized
    rw [if_pos rfl]
  exact ⟨by norm_num, le_refl 1, h, by rw [h]; norm_num⟩

/-- Claim C5, amended: for fixed min ≤ max with min at least the 0.01 epsilon, the
function is monotone non-decreasing in its value argument and always in `[0, 1]`;
when min < max it is 0 at every value ≤ min and 1 at every value ≥ max; and it
returns 0 whenever the floored min and max have equal base-10 logarithms (the
degenerate min = max range, where it therefore does not reach 1). -/
theorem claim_c5_log_normalized_amended (lo hi : ℝ) (hlo : 0.01 ≤ lo) (hle : lo ≤ hi) :
    (∀ v w : ℝ, v ≤ w →
      getLogHeightNormalized v lo hi ≤ getLogHeightNormalized w lo hi) ∧
    (∀ v : ℝ, 0 ≤ getLogHeightNormalized v lo hi ∧ getLogHeightNormalized v lo hi ≤ 1) ∧
    (lo < hi →
      (∀ v : ℝ, v ≤ lo → getLogHeightNormalized v lo hi = 0) ∧
      (∀ v : ℝ, hi ≤ v → getLogHeightNormalized v lo hi = 1)) ∧
    (Real.logb 10 (max hi 0.01) = Real.logb 10 (max lo 0.01) →
      ∀ v : ℝ, getLogHeightNormalized v lo hi = 0) := by
  have hlopos : (0:ℝ) < lo := lt_of_lt_of_le (by norm_num) hlo
  have hhipos : (0:ℝ) < hi := lt_of_lt_of_le hlopos hle
  have hmaxlo : max lo (0.01:ℝ) = lo := max_eq_left hlo
  have hmaxhi : max hi (0.01:ℝ) = hi := max_eq_left (le_trans hlo hle)
  refine ⟨?_, ?_, ?_, ?_⟩
  · intro v w hvw
    unfold getLogHeightNormalized
    by_cases hdeg : Real.logb 10 (max hi 0.01) = Real.logb 10 (max lo 0.01)
    · simp only [if_pos hdeg]
      exact le_refl 0
    · simp only [if_neg hdeg]
      have hlt : lo < hi := by
        rcases lt_or_eq_of_le hle with h | h
        · exact h
        · exact absurd (by rw [h]) hdeg
      have hlog : Real.logb 10 (max lo 0.01) < Real.logb 10 (max hi 0.01) := by
        rw [hmaxlo, hmaxhi]
        exact Real.logb_lt_logb (by norm_num) hlopos hlt
      have hden : (0:ℝ) < Real.logb 10 (max hi 0.01) - Real.logb 10 (max lo 0.01) := by
        linarith
      have hmono : Real.logb 10 (max v 0.01) ≤ Real.logb 10 (max w 0.01) :=
        Real.logb_le_logb_of_le (by norm_num) (lt_max_of_lt_right (by norm_num))
          (max_le_max hvw le_rfl)
      have hq : (Real.logb 10 (max v 0.01) - Real.logb 10 (max lo 0.01)) /
            (Real.logb 10 (max hi 0.01) - Real.logb 10 (max lo 0.01)) ≤
          (Real.logb 10 (max w 0.01) - Real.logb 10 (max lo 0.01)) /
            (Real.logb 10 (max hi 0.01) - Real.logb 10 (max lo 0.01)) := by
        gcongr
      exact max_le_max le_rfl (min_le_min hq le_rfl)
  · intro v
    unfold getLogHeightNormalized
    by_cases hdeg : Real.logb 10 (max hi 0.01) = Real.logb 10 (max lo 0.01)
    · rw [if_pos hdeg]
      norm_num
    · rw [if_neg hdeg]
      exact ⟨le_max_left 0 _, max_le (by norm_num) (min_le_right _ _)⟩
  · intro hlt
    have hlog : Real.logb 10 (max lo 0.01) < Real.logb 10 (max hi 0.01) := by
      rw [hmaxlo, hmaxhi]
      exact Real.logb_lt_logb (by norm_num) hlopos hlt
    have hdeg : ¬ Real.logb 10 (max hi 0.01) = Real.logb 10 (max lo 0.01) :=
      ne_of_gt hlog
    have hden : (0:ℝ) < Real.logb 10 (max hi 0.01) - Real.logb 10 (max lo 0.01) := by
      linarith
    constructor
    · intro v hv
      unfold getLogHeightNormalized
      rw [if_neg hdeg]
      have hsv : max v (0.01:ℝ) ≤ lo := max_le (le_trans hv le_rfl) hlo
      have hnum : Real.logb 10 (max v 0.01) - Real.logb 10 (max lo 0.01) ≤ 0 := by
        have hsv' : max v (0.01:ℝ) ≤ max lo 0.01 := by
          rw [hmaxlo]
          exact hsv
        have : Real.logb 10 (max v 0.01) ≤ Real.logb 10 (max lo 0.01) :=
          Real.logb_le_logb_of_le (by norm_num)
            (lt_max_of_lt_right (by norm_num)) hsv'
        linarith
      have hq : (Real.logb 10 (max v 0.01) - Real.logb 10 (max lo 0.01)) /
          (Real.logb 10 (max hi 0.01) - Real.logb 10 (max lo 0.01)) ≤ 0 :=
        div_nonpos_of_nonpos_of_nonneg hnum (le_of_lt hden)
      exact max_eq_left (le_trans (min_le_left _ _) hq)
    · intro v hv
      unfold getLogHeightNormalized
      rw [if_neg hdeg]
      have hsv : max v (0.01:ℝ) = v := max_eq_left (le_trans (le_trans hlo hle) hv)
      have hnum : Real.logb 10 (max hi 0.01) ≤ Real.logb 10 (max v 0.01) := by
        rw [hmaxhi, hsv]
        exact Real.logb_le_logb_of_le (by norm_num) hhipos hv
      have hq : (1:ℝ) ≤ (Real.logb 10 (max v 0.01) - Real.logb 10 (max lo 0.01)) /
          (Real.logb 10 (max hi 0.01) - Real.logb 10 (max lo 0.01)) := by
        rw [le_div_iff₀ hden]
        linarith
      rw [min_eq_right hq, max_eq_right zero_le_one]
  · intro hdeg v
    unfold getLogHeightNormalized
    rw [if_pos hdeg]

theorem claim_c5_log_normalized_amended_witness :
    getLogHeightNormalized (1/10) (1/10) 10 ≤ getLogHeightNormalized 1 (1/10) 10 ∧
    (0 ≤ getLogHeightNormalized 1 (1/10) 10 ∧ getLogHeightNormalized 1 (1/10) 10 ≤ 1) ∧
    getLogHeightNormalized (1/20) (1/10) 10 = 0 ∧
    getLogHeightNormalized 20 (1/10) 10 = 1 := by
  obtain ⟨hmono, hrange, hends, _⟩ :=
    claim_c5_log_normalized_amended (1/10) 10 (by norm_num) (by norm_num)
  obtain ⟨hzero, hone⟩ := hends (by norm_num)
  exact ⟨hmono (1/10) 1 (by norm_num), hrange 1,
    hzero (1/20) (by norm_num), hone 20 (by norm_num)⟩

/-- Constant `ACTIVE_HEIGHT_RATIO` of components/ScaleJourneyApp.tsx. -/
def activeHeightFraction : ℚ := 0.58

/-- Constant `ENTRY_WIDTH_FACTOR` of components/ScaleJourneyApp.tsx. -/
def entryWidthFactor : ℚ := 0.38

/-- Constant `MIN_GAP_METERS` of components/ScaleJourneyApp.tsx. -/
def minGapMeters : ℚ := 0.18

/-- Constant `MAX_GAP_METERS` of components/ScaleJourneyApp.tsx. -/
def maxGapMeters : ℚ := 12

/-- Constant `EDGE_FRAME_MARGIN_PX` of components/ScaleJourneyApp.tsx. -/
def edgeFrameMarginPx : ℚ := 26

/-- Constant `ADJACENT_MIN_VISIBLE_FRACTION` of components/ScaleJourneyApp.tsx. -/
def adjacentMinVisibleFraction : ℚ := 0.2

/-- Constant `MAX_RENDER_DISTANCE` of components/ScaleJourneyApp.tsx. -/
def maxRenderDistance : ℤ := 2

/-- The world-space gap between two adjacent entries, from the `worldCenters`
memo of components/ScaleJourneyApp.tsx:
`clamp(averageHeight * 0.16 + heightDelta * 0.55 + 0.18, MIN_GAP_METERS, MAX_GAP_METERS)`. -/
def gapMeters (previousHeight currentHeight : ℚ) : ℚ :=
  clamp ((previousHeight + currentHeight) * 0.5 * 0.16 +
    |currentHeight - previousHeight| * 0.55 + 0.18) minGapMeters maxGapMeters

/-- The accumulation loop of the `worldCenters` memo: each center is the previous
center plus the previous half-width, the gap, and the current half-width. -/
def worldCentersAux (previousHeight previousCenter : ℚ) : List ℚ → List ℚ
  | [] => []
  | current :: rest =>
    let center := previousCenter + previousHeight * entryWidthFactor * 0.5 +
      gapMeters previousHeight current + current * entryWidthFactor * 0.5
    center :: worldCentersAux current center rest

/-- Shallow embedding of the `worldCenters` memo of components/ScaleJourneyApp.tsx,
with entries abstracted to their heightMeters values: index 0 sits at center 0 and
the rest accumulate left to right. -/
def worldCenters : List ℚ → List ℚ
  | [] => []
  | first :: rest => 0 :: worldCentersAux first 0 rest

lemma worldCentersAux_length (previousHeight previousCenter : ℚ) (rest : List ℚ) :
    (worldCentersAux previousHeight previousCenter rest).length = rest.length := by
  induction rest generalizing previousHeight previousCenter with
  | nil => rfl
  | cons current rest ih =>
    simp only [worldCentersAux, List.length_cons]
    rw [ih]

lemma worldCenters_length (hs : List ℚ) : (worldCenters hs).length = hs.length := by
  cases hs with
  | nil => rfl
  | cons first rest =>
    simp only [worldCenters, List.length_cons]
    rw [worldCentersAux_length]

/-- The preferred scale of components/ScaleJourneyApp.tsx:
`targetActiveHeightPx / Math.max(activeHeightMeters, 0.01)` with
`targetActiveHeightPx = stageSize.height * ACTIVE_HEIGHT_RATIO`. -/
def preferredPixelsPerMeter (stageHeight activeHeightMeters : ℚ) : ℚ :=
  stageHeight * activeHeightFraction / max activeHeightMeters 0.01

/-- `availableNeighborFramePx` of components/ScaleJourneyApp.tsx:
`Math.max(stageSize.width * 0.5 - EDGE_FRAME_MARGIN_PX, 32)`. -/
def availableNeighborFramePx (stageWidth : ℚ) : ℚ :=
  max (stageWidth * 0.5 - edgeFrameMarginPx) 32

/-- `activeNeighborIndices` of components/ScaleJourneyApp.tsx:
`[safe - 1, safe + 1]` filtered to indices inside `[0, total)`. -/
def activeNeighborIndices (safe total : ℕ) : List ℤ :=
  ([(safe : ℤ) - 1, (safe : ℤ) + 1]).filter
    (fun i => decide (0 ≤ i ∧ i < (total : ℤ)))

/-- `neighborVisibilityLimit` of components/ScaleJourneyApp.tsx: a fold over the
adjacent neighbors that keeps the minimum admissible scale, with the reduce's
`Number.POSITIVE_INFINITY` start modelled as `none`. A neighbor whose
`denominator <= 0` never leaves the half-frame and does not constrain the scale. -/
def neighborVisibilityLimit (hs : List ℚ) (safe : ℕ) (stageWidth : ℚ) : Option ℚ :=
  let centers := worldCenters hs
  let activeWorldX := centers.getD safe 0
  (activeNeighborIndices safe hs.length).foldl (fun limit i =>
    let neighborHeight := hs.getD i.toNat 0
    let neighborWorldX := centers.getD i.toNat activeWorldX
    let deltaMeters := |neighborWorldX - activeWorldX|
    let neighborHalfWidthMeters := neighborHeight * entryWidthFactor * 0.5
    let denominator := deltaMeters -
      neighborHalfWidthMeters * (1 - adjacentMinVisibleFraction * 2)
    if denominator ≤ 0 then limit
    else
      some (match limit with
        | none => availableNeighborFramePx stageWidth / denominator
        | some l => min l (availableNeighborFramePx stageWidth / denominator))) none

/-- `pixelsPerMeter` of components/ScaleJourneyApp.tsx:
`Math.min(preferredPixelsPerMeter, neighborVisibilityLimit)`, where an unbounded
limit (the reduce's untouched `Infinity`) leaves the preferred scale as is.
The active height falls back exactly as the component does
(`activeEntry?.heightMeters ?? minHeight` with `minHeight = entries[0]?.heightMeters ?? 0.01`). -/
def pixelsPerMeter (hs : List ℚ) (safe : ℕ) (stageWidth stageHeight : ℚ) : ℚ :=
  let minHeight := hs.getD 0 0.01
  let activeHeightMeters := hs.getD safe minHeight
  match neighborVisibilityLimit hs safe stageWidth with
  | none => preferredPixelsPerMeter stageHeight activeHeightMeters
  | some l => min (preferredPixelsPerMeter stageHeight activeHeightMeters) l

/-- The claim's preferred scale, stated from the spec's words for the refinement
comparison of claim C1: a fixed 0.58 fraction of stage height divided by the
active entry's magnitude, the magnitude floored at 0.01. -/
def specPreferredScale (stageHeight activeMagnitude : ℚ) : ℚ :=
  0.58 * stageHeight / max activeMagnitude 0.01

/-- The claim's per-neighbor ceiling, stated from the spec's words: the largest
scale at which a neighbor at absolute world distance `deltaMeters` with half-width
`halfWidth` still shows at least its minimum visible fraction (0.2) inside a
horizontal half-frame of `halfFramePx`; `none` when the neighbor constrains no
scale. -/
def specNeighborCeiling (halfFramePx deltaMeters halfWidth : ℚ) : Option ℚ :=
  if 0 < deltaMeters - halfWidth * (1 - adjacentMinVisibleFraction * 2) then
    some (halfFramePx / (deltaMeters - halfWidth * (1 - adjacentMinVisibleFraction * 2)))
  else none

/-- The claim's final scale with the half-frame passed explicitly, stated from the
spec's words: the minimum of the preferred scale and the minimum ceiling over the
at-most-two index-adjacent neighbors; with no constraining neighbor the preferred
scale is returned. -/
def specPixelsPerMeterWith (halfFramePx : ℚ) (hs : List ℚ) (safe : ℕ)
    (stageHeight : ℚ) : ℚ :=
  let centers := worldCenters hs
  let activeWorldX := centers.getD safe 0
  let ceilings := (activeNeighborIndices safe hs.length).filterMap (fun i =>
    specNeighborCeiling halfFramePx |centers.getD i.toNat activeWorldX - activeWorldX|
      (hs.getD i.toNat 0 * entryWidthFactor * 0.5))
  let preferred := specPreferredScale stageHeight (hs.getD safe (hs.getD 0 0.01))
  match ceilings.min? with
  | none => preferred
  | some c => min preferred c

/-- The claim's final scale exactly as claimed (C1): the half-frame is the stage
half-width minus the edge margin, with no floor. -/
def specPixelsPerMeterClaim (hs : List ℚ) (safe : ℕ) (stageWidth stageHeight : ℚ) : ℚ :=
  specPixelsPerMeterWith (stageWidth * 0.5 - edgeFrameMarginPx) hs safe stageHeight

/-- The amended claim's final scale (C1): the half-frame is the stage half-width
minus the edge margin, floored at 32 pixels. -/
def specPixelsPerMeterFloored (hs : List ℚ) (safe : ℕ) (stageWidth stageHeight : ℚ) : ℚ :=
  specPixelsPerMeterWith (max (stageWidth * 0.5 - edgeFrameMarginPx) 32) hs safe stageHeight

lemma foldl_min_eq (v : ℚ) (l : List ℚ) :
    l.foldl min v = (l.min?).elim v (min v) := by
  induction l generalizing v with
  | nil => rfl
  | cons a t ih =>
    rw [List.foldl_cons, ih (min v a), List.min?_cons]
    cases t.min? with
    | none => simp only [Option.elim_none, Option.elim_some]
    | some m =>
      simp only [Option.elim_none, Option.elim_some]
      rw [min_assoc]

lemma foldl_skip_min_acc {α : Type} (g : α → Option ℚ) (l : List α) (acc : ℚ) :
    l.foldl (fun limit i =>
      match g i with
      | none => limit
      | some allowed => some ((limit.elim allowed (fun m => min m allowed)))) (some acc) =
    some (((l.filterMap g).min?).elim acc (min acc)) := by
  induction l generalizing acc with
  | nil => rfl
  | cons a t ih =>
    cases hg : g a with
    | none =>
      simp only [List.foldl_cons, hg, List.filterMap_cons]
      exact ih acc
    | some v =>
      simp only [List.foldl_cons, hg, List.filterMap_cons, Option.elim_some]
      rw [ih (min acc v)]
      rw [List.min?_cons]
      cases (t.filterMap g).min? with
      | none => simp only [Option.elim_none, Option.elim_some]
      | some m =>
        simp only [Option.elim_none, Option.elim_some]
        rw [min_assoc]

lemma foldl_skip_min_eq {α : Type} (g : α → Option ℚ) (l : List α) :
    l.foldl (fun limit i =>
      match g i with
      | none => limit
      | some allowed => some ((limit.elim allowed (fun m => min m allowed)))) none =
    (l.filterMap g).min? := by
  induction l with
  | nil => rfl
  | cons a t ih =>
    cases hg : g a with
    | none =>
      simp only [List.foldl_cons, hg, List.filterMap_cons]
      exact ih
    | some v =>
      simp only [List.foldl_cons, hg, List.filterMap_cons, Option.elim_none]
      rw [foldl_skip_min_acc]
      rw [List.min?_cons]

lemma neighborVisibilityLimit_eq_min? (hs : List ℚ) (safe : ℕ) (stageWidth : ℚ) :
    neighborVisibilityLimit hs safe stageWidth =
    ((activeNeighborIndices safe hs.length).filterMap (fun i =>
      specNeighborCeiling (availableNeighborFramePx stageWidth)
        |(worldCenters hs).getD i.toNat ((worldCenters hs).getD safe 0) -
          (worldCenters hs).getD safe 0|
        (hs.getD i.toNat 0 * entryWidthFactor * 0.5))).min? := by
  unfold neighborVisibilityLimit
  rw [← foldl_skip_min_eq]
  apply List.foldl_ext
  intro limit i _
  by_cases hd : |(worldCenters hs).getD i.toNat ((worldCenters hs).getD safe 0) -
      (worldCenters hs).getD safe 0| -
      hs.getD i.toNat 0 * entryWidthFactor * 0.5 *
        (1 - adjacentMinVisibleFraction * 2) ≤ 0
  · simp only [specNeighborCeiling, if_pos hd, if_neg (not_lt.mpr hd)]
  · simp only [specNeighborCeiling, if_neg hd, if_pos (not_le.mp hd)]
    cases limit with
    | none => rfl
    | some l => rfl

/-- Claim C1 counterexample: at heights [1, 1], active index 0, stage width 110 and
stage height 640, the code's final scale uses the half-frame floored at 32 px
(`max(110/2 - 26, 32) = 32`) while the claim's half-frame is `110/2 - 26 = 29`,
so the two final scales differ. -/
theorem claim_c1_pixels_per_meter_cex :
    pixelsPerMeter [1, 1] 0 110 640 ≠ specPixelsPerMeterClaim [1, 1] 0 110 640 := by
  have hcode : pixelsPerMeter [1, 1] 0 110 640 = 16000 / 303 := by
    norm_num [pixelsPerMeter, neighborVisibilityLimit, activeNeighborIndices,
      worldCenters, worldCentersAux, gapMeters, clamp, minGapMeters, maxGapMeters,
      preferredPixelsPerMeter, activeHeightFraction, entryWidthFactor,
      adjacentMinVisibleFraction, availableNeighborFramePx, edgeFrameMarginPx,
      List.filter, List.foldl, List.getD, min_def, max_def, abs]
  have hspec : specPixelsPerMeterClaim [1, 1] 0 110 640 = 14500 / 303 := by
    norm_num [specPixelsPerMeterClaim, specPixelsPerMeterWith, specNeighborCeiling,
      specPreferredScale, activeNeighborIndices, worldCenters, worldCentersAux,
      gapMeters, clamp, minGapMeters, maxGapMeters, entryWidthFactor,
      adjacentMinVisibleFraction, edgeFrameMarginPx, List.filter, List.filterMap,
      List.min?, List.foldl, List.getD, min_def, max_def, abs]
  rw [hcode, hspec]
  norm_num

/-- Claim C1, amended: for every non-empty entry list with positive magnitudes,
every stage size and every active index in range, the final pixels-per-unit scale
equals the minimum of (a) the preferred scale — 0.58 of stage height divided by
the active magnitude floored at 0.01 — and (b) the neighbor-visibility ceiling,
the minimum over the at-most-two index-adjacent neighbors of the largest scale at
which the neighbor still shows its minimum visible fraction inside the horizontal
half-frame, where the half-frame is the stage half-width minus the edge margin
floored at 32 pixels; with no constraining neighbor the preferred scale is
returned. -/
theorem claim_c1_pixels_per_meter_amended (hs : List ℚ) (safe : ℕ)
    (stageWidth stageHeight : ℚ) (h1 : hs ≠ []) (h2 : ∀ x ∈ hs, 0 < x)
    (h3 : safe < hs.length) :
    pixelsPerMeter hs safe stageWidth stageHeight =
    specPixelsPerMeterFloored hs safe stageWidth stageHeight := by
  unfold pixelsPerMeter specPixelsPerMeterFloored specPixelsPerMeterWith
  rw [neighborVisibilityLimit_eq_min?]
  have hhalf : availableNeighborFramePx stageWidth =
      max (stageWidth * 0.5 - edgeFrameMarginPx) 32 := rfl
  have hpref : preferredPixelsPerMeter stageHeight (hs.getD safe (hs.getD 0 0.01)) =
      specPreferredScale stageHeight (hs.getD safe (hs.getD 0 0.01)) := by
    unfold preferredPixelsPerMeter specPreferredScale activeHeightFraction
    rw [mul_comm]
  rw [hhalf]
  dsimp only
  rw [hpref]

theorem claim_c1_pixels_per_meter_amended_witness :
    ([(1 : ℚ), 2] ≠ [] ∧ (∀ x ∈ [(1 : ℚ), 2], 0 < x) ∧ 0 < [(1 : ℚ), 2].length) ∧
    pixelsPerMeter [1, 2] 0 1280 640 = specPixelsPerMeterFloored [1, 2] 0 1280 640 :=
  ⟨⟨by simp, by norm_num, by norm_num⟩,
   claim_c1_pixels_per_meter_amended [1, 2] 0 1280 640 (by simp) (by norm_num)
     (by norm_num)⟩

/-- One element of the `renderedEntries` memo of components/ScaleJourneyApp.tsx,
with the entry itself abstracted to its index and the computed per-entry fields. -/
structure RenderedEntry where
  index : ℕ
  isActive : Bool
  isVisible : Bool
  isAdjacent : Bool
  isNearby : Bool
  heightPx : ℚ
  x : ℚ
  opacity : ℚ
  scale : ℚ

/-- The arrow function inside the `renderedEntries` map of
components/ScaleJourneyApp.tsx, applied to one (index, heightMeters) pair. -/
def renderedEntryFor (hs : List ℚ) (safe : ℕ) (stageWidth stageHeight : ℚ)
    (p : ℕ × ℚ) : RenderedEntry :=
  let centers := worldCenters hs
  let activeWorldX := centers.getD safe 0
  let ppm := pixelsPerMeter hs safe stageWidth stageHeight
  let viewportHalf := stageWidth * 0.5
  let overscanPx := stageWidth * 0.2
  let index := p.1
  let worldX := centers.getD index 0
  let x := (worldX - activeWorldX) * ppm
  let heightPx := max 1 (p.2 * ppm)
  let widthPx := max 8 (heightPx * entryWidthFactor)
  let distancePx := |x|
  { index := index,
    isActive := decide (index = safe),
    isVisible := decide (distancePx - widthPx * 0.5 ≤ viewportHalf + overscanPx),
    isAdjacent := decide (|(index : ℤ) - (safe : ℤ)| = 1),
    isNearby := decide (|(index : ℤ) - (safe : ℤ)| ≤ maxRenderDistance),
    heightPx := heightPx,
    x := x,
    opacity := if index = safe then 1
      else clamp (0.95 - distancePx / (stageWidth * 1.28)) 0.2 0.88,
    scale := if index = safe then 1
      else clamp (1 - distancePx / (stageWidth * 3.4)) 0.65 0.98 }

/-- Shallow embedding of the `renderedEntries` memo of
components/ScaleJourneyApp.tsx: map every entry to its computed frame fields and
keep those that are nearby and, in addition, visible, adjacent, or active. The
active index is clamped exactly as the component's `safeActiveIndex`. -/
def renderedEntries (hs : List ℚ) (activeIndex : ℤ)
    (stageWidth stageHeight : ℚ) : List RenderedEntry :=
  let safe := (clampIndex activeIndex (hs.length : ℤ)).toNat
  (hs.enum.map (renderedEntryFor hs safe stageWidth stageHeight)).filter
    (fun item => item.isNearby && (item.isVisible || item.isAdjacent || item.isActive))

lemma renderedEntryFor_index (hs : List ℚ) (safe : ℕ) (stageWidth stageHeight : ℚ)
    (p : ℕ × ℚ) : (renderedEntryFor hs safe stageWidth stageHeight p).index = p.1 := rfl

lemma renderedEntryFor_isActive (hs : List ℚ) (safe : ℕ) (stageWidth stageHeight : ℚ)
    (p : ℕ × ℚ) : (renderedEntryFor hs safe stageWidth stageHeight p).isActive =
      decide (p.1 = safe) := rfl

lemma renderedEntryFor_isNearby (hs : List ℚ) (safe : ℕ) (stageWidth stageHeight : ℚ)
    (p : ℕ × ℚ) : (renderedEntryFor hs safe stageWidth stageHeight p).isNearby =
      decide (|(p.1 : ℤ) - (safe : ℤ)| ≤ maxRenderDistance) := rfl

/-- Claim C6: for a non-empty entry list, every produced frame has exactly one
rendered entry with `isActive = true`, namely the one at the clamped active index. -/
theorem claim_c6_exactly_one_active (hs : List ℚ) (activeIndex : ℤ)
    (stageWidth stageHeight : ℚ) (h : hs ≠ []) :
    (renderedEntries hs activeIndex stageWidth stageHeight).countP
      (fun e => e.isActive) = 1 ∧
    ∀ e ∈ renderedEntries hs activeIndex stageWidth stageHeight,
      e.isActive = true →
        e.index = (clampIndex activeIndex (hs.length : ℤ)).toNat := by
  have hlen : hs.length ≠ 0 := by
    simpa [List.length_eq_zero] using h
  have hpos : (0 : ℤ) < (hs.length : ℤ) := by omega
  have hb := clampIndex_bounds activeIndex (hs.length : ℤ) hpos
  set safe := (clampIndex activeIndex (hs.length : ℤ)).toNat with hsafe_def
  have hsafe : safe < hs.length := by omega
  constructor
  · unfold renderedEntries
    rw [← hsafe_def]
    rw [List.countP_filter, List.countP_map]
    have hcongr : List.countP
        ((fun e : RenderedEntry => e.isActive &&
          (e.isNearby && (e.isVisible || e.isAdjacent || e.isActive))) ∘
          renderedEntryFor hs safe stageWidth stageHeight) hs.enum =
        List.countP (fun x : ℕ × ℚ => x.1 == safe) hs.enum := by
      apply List.countP_congr
      intro x _
      simp only [Function.comp_apply, renderedEntryFor_isActive,
        renderedEntryFor_isNearby]
      by_cases hp : x.1 = safe
      · simp [hp, maxRenderDistance]
      · simp [hp]
    rw [hcongr]
    have hmapfst : List.countP (fun x : ℕ × ℚ => x.1 == safe) hs.enum =
        List.countP (fun i : ℕ => i == safe) (hs.enum.map Prod.fst) := by
      rw [List.countP_map]
      rfl
    rw [hmapfst, List.enum_map_fst]
    rw [← List.count_eq_countP]
    exact List.count_eq_one_of_mem (List.nodup_range _) (List.mem_range.mpr hsafe)
  · intro e he hact
    unfold renderedEntries at he
    rw [← hsafe_def] at he
    rw [List.mem_filter] at he
    obtain ⟨hm, _⟩ := he
    rw [List.mem_map] at hm
    obtain ⟨p, _, rfl⟩ := hm
    rw [renderedEntryFor_isActive] at hact
    rw [renderedEntryFor_index]
    exact of_decide_eq_true hact

theorem claim_c6_exactly_one_active_witness :
    (renderedEntries [1, 2, 3] 1 1280 640).countP (fun e => e.isActive) = 1 ∧
    ∀ e ∈ renderedEntries [1, 2, 3] 1 1280 640,
      e.isActive = true → e.index = (clampIndex 1 ((3 : ℕ) : ℤ)).toNat :=
  claim_c6_exactly_one_active [1, 2, 3] 1 1280 640 (by simp)

/-- One row of the Pokemon dataset, as consumed by lib/representative.ts. -/
structure PokemonDatasetEntry where
  dexNumber : ℤ
  slug : String
  name : String
  heightMeters : ℚ
  weightKg : ℚ
  description : String
  sourceUrl : String
  cry : String
  model : String

/-- The grouping key `entry.heightMeters.toFixed(2)` of lib/representative.ts,
modelled as the integer number of centimeters: JavaScript `toFixed(2)` picks the
closest hundredth and resolves ties toward the larger value, which for the
dataset's positive heights is exactly `⌊h * 100 + 1/2⌋`. Two entries share a
`toFixed(2)` key exactly when they share this integer. -/
def heightKey (h : ℚ) : ℤ := ⌊h * 100 + 1 / 2⌋

/-- The `POPULARITY_PRIORITY` list of lib/representative.ts. -/
def popularityPriority : List String :=
  ["pikachu", "charizard", "mewtwo", "eevee", "bulbasaur", "squirtle",
   "charmander", "lucario", "gengar", "snorlax", "dragonite", "gardevoir",
   "greninja", "rayquaza", "garchomp", "lapras", "arcanine", "gyarados",
   "alakazam", "machamp", "psyduck", "jigglypuff", "meowth", "onix",
   "scyther", "ditto", "vaporeon", "jolteon", "flareon", "mew", "lugia",
   "ho-oh", "blaziken", "sceptile", "swampert", "aggron", "metagross",
   "salamence", "kyogre", "groudon", "gallade", "infernape", "empoleon",
   "staraptor", "luxray", "riolu", "dialga", "palkia", "giratina", "arceus",
   "zoroark", "bisharp", "haxorus", "hydreigon", "reshiram", "zekrom",
   "kyurem", "chesnaught", "delphox", "talonflame", "aegislash", "goodra",
   "sylveon", "xerneas", "yveltal", "zygarde", "decidueye", "incineroar",
   "primarina", "mimikyu", "lycanroc", "solgaleo", "lunala", "necrozma",
   "cinderace", "rillaboom", "inteleon", "corviknight", "dragapult",
   "zacian", "zamazenta", "urshifu", "calyrex", "sprigatito", "quaxly",
   "meowscarada", "skeledirge", "quaquaval", "ceruledge", "armarouge",
   "tinkaton", "annihilape", "kingambit", "koraidon", "miraidon",
   "pecharunt", "eternatus"]

/-- `hasResolvedProjectPokemonModel` of lib/representative.ts:
the model URL must not contain the substring "fallback=1". -/
def hasResolvedProjectPokemonModel (modelUrl : String) : Bool :=
  ! decide (("fallback=1").toList <:+: modelUrl.toList)

/-- `getPopularityScore` of lib/representative.ts; the `priorityMap` lookup is the
index of the slug in `POPULARITY_PRIORITY` (slugs there are unique, so the first
index is the map's value). -/
def getPopularityScore (entry : PokemonDatasetEntry) : ℤ :=
  let priorityScore := match popularityPriority.findIdx? (fun s => s = entry.slug) with
    | some i => 1000000 - (i : ℤ) * 1000
    | none => 0
  let dexScore := max 0 (200000 - entry.dexNumber * 100)
  priorityScore + dexScore

/-- `compareByPopularity` of lib/representative.ts. -/
def compareByPopularity (a b : PokemonDatasetEntry) : ℤ :=
  let scoreDiff := getPopularityScore b - getPopularityScore a
  if scoreDiff ≠ 0 then scoreDiff else a.dexNumber - b.dexNumber

/-- `compareByHeightThenDex` of lib/representative.ts. -/
def compareByHeightThenDex (a b : PokemonDatasetEntry) : ℚ :=
  if a.heightMeters = b.heightMeters then ((a.dexNumber - b.dexNumber : ℤ) : ℚ)
  else a.heightMeters - b.heightMeters

/-- The sorts-before relation induced by `compareByPopularity` under
`Array.prototype.sort`. -/
def popularityLe (a b : PokemonDatasetEntry) : Bool :=
  decide (compareByPopularity a b ≤ 0)

/-- The sorts-before relation induced by `compareByHeightThenDex` under
`Array.prototype.sort`. -/
def heightThenDexLe (a b : PokemonDatasetEntry) : Bool :=
  decide (compareByHeightThenDex a b ≤ 0)

/-- The iteration order of the grouping `Map` of lib/representative.ts: keys in
order of first occurrence. -/
def firstOccurrenceKeys : List ℤ → List ℤ
  | [] => []
  | k :: ks => k :: (firstOccurrenceKeys ks).filter (fun x => decide (x ≠ k))

/-- Shallow embedding of `selectRepresentativePokemonByHeight` of
lib/representative.ts: group the dataset by `toFixed(2)` height key (the group of
a key collects the dataset rows with that key, in dataset order, exactly as the
`Map` building loop does), drop entries whose model is a fallback, skip empty
groups, pick the most popular entry of each group (the head of the
popularity-sorted group), and sort the representatives by height then dex. -/
def selectRepresentativePokemonByHeight
    (dataset : List PokemonDatasetEntry) : List PokemonDatasetEntry :=
  let keys := firstOccurrenceKeys (dataset.map (fun e => heightKey e.heightMeters))
  let representatives := keys.filterMap (fun k =>
    let group := dataset.filter (fun e => decide (heightKey e.heightMeters = k))
    let entriesWithResolvedModel :=
      group.filter (fun e => hasResolvedProjectPokemonModel e.model)
    (entriesWithResolvedModel.mergeSort popularityLe).head?)
  representatives.mergeSort heightThenDexLe

lemma firstOccurrenceKeys_nodup (l : List ℤ) : (firstOccurrenceKeys l).Nodup := by
  induction l with
  | nil => exact List.nodup_nil
  | cons k ks ih =>
    simp only [firstOccurrenceKeys]
    rw [List.nodup_cons]
    constructor
    · intro hmem
      rw [List.mem_filter] at hmem
      simp at hmem
    · exact ih.filter _

lemma pick_spec (dataset : List PokemonDatasetEntry) (k : ℤ) (e : PokemonDatasetEntry)
    (h : (((dataset.filter (fun x => decide (heightKey x.heightMeters = k))).filter
        (fun x => hasResolvedProjectPokemonModel x.model)).mergeSort
        popularityLe).head? = some e) :
    heightKey e.heightMeters = k ∧ hasResolvedProjectPokemonModel e.model = true := by
  have hmem : e ∈ ((dataset.filter (fun x => decide (heightKey x.heightMeters = k))).filter
      (fun x => hasResolvedProjectPokemonModel x.model)).mergeSort popularityLe :=
    List.mem_of_mem_head? (Option.mem_def.mpr h)
  have hmem2 := (List.mergeSort_perm _ popularityLe).subset hmem
  rw [List.mem_filter] at hmem2
  obtain ⟨hg, hres⟩ := hmem2
  rw [List.mem_filter] at hg
  obtain ⟨_, hkey⟩ := hg
  exact ⟨of_decide_eq_true hkey, hres⟩

lemma heightThenDexLe_iff (a b : PokemonDatasetEntry) :
    heightThenDexLe a b = true ↔
    (a.heightMeters < b.heightMeters ∨
      (a.heightMeters = b.heightMeters ∧ a.dexNumber ≤ b.dexNumber)) := by
  unfold heightThenDexLe compareByHeightThenDex
  by_cases h : a.heightMeters = b.heightMeters
  · rw [if_pos h]
    simp only [decide_eq_true_eq, h, lt_irrefl, false_or, true_and]
    constructor
    · intro hle
      have : ((a.dexNumber - b.dexNumber : ℤ) : ℚ) ≤ ((0 : ℤ) : ℚ) := by
        push_cast
        push_cast at hle
        linarith
      have h2 : (a.dexNumber - b.dexNumber : ℤ) ≤ 0 := by exact_mod_cast this
      omega
    · intro hle
      have : ((a.dexNumber - b.dexNumber : ℤ) : ℚ) ≤ ((0 : ℤ) : ℚ) := by
        exact_mod_cast (by omega : (a.dexNumber - b.dexNumber : ℤ) ≤ 0)
      simpa using this
  · rw [if_neg h]
    simp only [decide_eq_true_eq, sub_nonpos, h, false_and, or_false]
    constructor
    · intro hle
      exact lt_of_le_of_ne hle h
    · exact le_of_lt

lemma heightThenDexLe_trans (a b c : PokemonDatasetEntry)
    (hab : heightThenDexLe a b = true) (hbc : heightThenDexLe b c = true) :
    heightThenDexLe a c = true := by
  rw [heightThenDexLe_iff] at hab hbc ⊢
  rcases hab with hab | ⟨hab, hab'⟩ <;> rcases hbc with hbc | ⟨hbc, hbc'⟩
  · exact Or.inl (lt_trans hab hbc)
  · exact Or.inl (hbc ▸ hab)
  · exact Or.inl (hab ▸ hbc)
  · exact Or.inr ⟨hab.trans hbc, le_trans hab' hbc'⟩

lemma heightThenDexLe_total (a b : PokemonDatasetEntry) :
    (heightThenDexLe a b || heightThenDexLe b a) = true := by
  rw [Bool.or_eq_true, heightThenDexLe_iff, heightThenDexLe_iff]
  rcases lt_trichotomy a.heightMeters b.heightMeters with h | h | h
  · exact Or.inl (Or.inl h)
  · rcases le_total a.dexNumber b.dexNumber with hd | hd
    · exact Or.inl (Or.inr ⟨h, hd⟩)
    · exact Or.inr (Or.inr ⟨h.symm, hd⟩)
  · exact Or.inr (Or.inl h)

/-- Claim C10: for every input dataset, the selected representatives contain at
most one entry per distinct `toFixed(2)`-rounded height, include only entries
whose model URL does not contain "fallback=1", and are sorted ascending by
heightMeters with ties broken by ascending dexNumber. -/
theorem claim_c10_representative_selection (dataset : List PokemonDatasetEntry) :
    (selectRepresentativePokemonByHeight dataset).Pairwise
      (fun a b => heightKey a.heightMeters ≠ heightKey b.heightMeters) ∧
    (∀ e ∈ selectRepresentativePokemonByHeight dataset,
      hasResolvedProjectPokemonModel e.model = true) ∧
    (selectRepresentativePokemonByHeight dataset).Pairwise
      (fun a b => a.heightMeters < b.heightMeters ∨
        (a.heightMeters = b.heightMeters ∧ a.dexNumber ≤ b.dexNumber)) := by
  unfold selectRepresentativePokemonByHeight
  dsimp only
  refine ⟨?_, ?_, ?_⟩
  · rw [List.Perm.pairwise_iff (fun hxy => Ne.symm hxy)
      (List.mergeSort_perm _ heightThenDexLe)]
    rw [List.pairwise_filterMap]
    have hnd := firstOccurrenceKeys_nodup
      (dataset.map (fun e => heightKey e.heightMeters))
    apply List.Pairwise.imp ?_ hnd
    intro k k' hkk' e he e' he'
    have h1 := pick_spec dataset k e (Option.mem_def.mp he)
    have h2 := pick_spec dataset k' e' (Option.mem_def.mp he')
    rw [h1.1, h2.1]
    exact hkk'
  · intro e he
    have he2 := (List.mergeSort_perm _ heightThenDexLe).subset he
    rw [List.mem_filterMap] at he2
    obtain ⟨k, _, hk⟩ := he2
    exact (pick_spec dataset k e hk).2
  · refine List.Pairwise.imp (fun hab => (heightThenDexLe_iff _ _).mp hab) ?_
    exact List.sorted_mergeSort heightThenDexLe_trans heightThenDexLe_total _

/-- A concrete two-row dataset used to witness claim C10 at a specific input. -/
def sampleDataset : List PokemonDatasetEntry :=
  [{ dexNumber := 1, slug := "bulbasaur", name := "Bulbasaur", heightMeters := 0.7,
     weightKg := 6.9, description := "seed", sourceUrl := "src", cry := "cry",
     model := "bulbasaur.glb" },
   { dexNumber := 25, slug := "pikachu", name := "Pikachu", heightMeters := 0.4,
     weightKg := 6, description := "mouse", sourceUrl := "src", cry := "cry",
     model := "pikachu.glb" }]

theorem claim_c10_representative_selection_witness :
    (selectRepresentativePokemonByHeight sampleDataset).Pairwise
      (fun a b => heightKey a.heightMeters ≠ heightKey b.heightMeters) ∧
    (∀ e ∈ selectRepresentativePokemonByHeight sampleDataset,
      hasResolvedProjectPokemonModel e.model = true) ∧
    (selectRepresentativePokemonByHeight sampleDataset).Pairwise
      (fun a b => a.heightMeters < b.heightMeters ∨
        (a.heightMeters = b.heightMeters ∧ a.dexNumber ≤ b.dexNumber)) :=
  claim_c10_representative_selection sampleDataset
